import Mathlib

/-!
# Task API: handlers over the in-memory task list

A shallow embedding of `main.go`.  The package-level slice `tasks` is threaded
through every handler explicitly: a handler takes the slice as it is when the
request arrives and returns the response written with `c.JSON` together with
the slice as it is when the handler returns.  The two things a handler reads
from the `gin.Context` are passed as arguments: the path parameter
`c.Param("id")`, and the outcome of `c.ShouldBindJSON(&t)`, which is either the
decoded `Task` or the error whose `Error()` text is reported.

Go strings are compared with `==`, which is equality of their contents; the
fields are modelled by `String` with its equality.  The status codes are the
values of the `net/http` constants.  Handlers run one at a time: each one
starts from the slice the previous one left.
-/

namespace TaskAPI

/-- The `Task` struct: three string fields. -/
structure Task where
  ID : String
  Title : String
  Status : String
  deriving DecidableEq, Repr

/-- The values handed to `c.JSON`: the whole slice, one task, or a `gin.H` map
given by its key/value entries. -/
inductive Body where
  | tasks (ts : List Task)
  | task (t : Task)
  | H (entries : List (String × String))
  deriving DecidableEq, Repr

/-- What `c.JSON(code, obj)` writes: the status code and the object. -/
structure Response where
  status : Nat
  body : Body
  deriving DecidableEq, Repr

/-- The constant `http.StatusOK`. -/
abbrev StatusOK : Nat := 200
/-- The constant `http.StatusCreated`. -/
abbrev StatusCreated : Nat := 201
/-- The constant `http.StatusBadRequest`. -/
abbrev StatusBadRequest : Nat := 400
/-- The constant `http.StatusNotFound`. -/
abbrev StatusNotFound : Nat := 404

/-- The initial value of the package-level variable `tasks`. -/
def tasks : List Task :=
  [ { ID := "1", Title := "Learn Go", Status := "pending" },
    { ID := "2", Title := "Build a REST API", Status := "in progress" } ]

/-- Handler `getTasks`: answers 200 with the slice; the slice is not assigned. -/
def getTasks (ts : List Task) : Response × List Task :=
  (⟨StatusOK, .tasks ts⟩, ts)

/-- The `for _, task := range tasks` loop of `getTaskByID` over the records
still to visit, followed by the statement after the loop. -/
def getTaskByID.loop (id : String) : List Task → Response
  | [] => ⟨StatusNotFound, .H [("message", "Task not found")]⟩
  | task :: rest =>
    if task.ID == id then ⟨StatusOK, .task task⟩
    else getTaskByID.loop id rest

/-- Handler `getTaskByID`: the slice is not assigned. -/
def getTaskByID (id : String) (ts : List Task) : Response × List Task :=
  (getTaskByID.loop id ts, ts)

/-- Handler `createTask`; `bind` is the outcome of `c.ShouldBindJSON(&newTask)`. -/
def createTask (bind : Except String Task) (ts : List Task) : Response × List Task :=
  match bind with
  | .error err => (⟨StatusBadRequest, .H [("error", err)]⟩, ts)
  | .ok newTask => (⟨StatusCreated, .task newTask⟩, ts ++ [newTask])

/-- The `for i, task := range tasks` loop of `updateTask`, at index `i` with
`rest` the records from index `i` on, followed by the statement after the loop.
`ts` is the whole slice; `tasks[i] = updatedTask` is `ts.set i updatedTask`. -/
def updateTask.loop (id : String) (updatedTask : Task) (ts : List Task) :
    Nat → List Task → Response × List Task
  | _, [] => (⟨StatusNotFound, .H [("message", "Task not found")]⟩, ts)
  | i, task :: rest =>
    if task.ID == id then (⟨StatusOK, .task updatedTask⟩, ts.set i updatedTask)
    else updateTask.loop id updatedTask ts (i + 1) rest

/-- Handler `updateTask`; `bind` is the outcome of
`c.ShouldBindJSON(&updatedTask)`, tested before the loop. -/
def updateTask (id : String) (bind : Except String Task) (ts : List Task) :
    Response × List Task :=
  match bind with
  | .error err => (⟨StatusBadRequest, .H [("error", err)]⟩, ts)
  | .ok updatedTask => updateTask.loop id updatedTask ts 0 ts

/-- The `for i, task := range tasks` loop of `deleteTask`, at index `i` with
`rest` the records from index `i` on, followed by the statement after the loop.
`append(tasks[:i], tasks[i+1:]...)` is `ts.take i ++ ts.drop (i + 1)`. -/
def deleteTask.loop (id : String) (ts : List Task) :
    Nat → List Task → Response × List Task
  | _, [] => (⟨StatusNotFound, .H [("message", "Task not found")]⟩, ts)
  | i, task :: rest =>
    if task.ID == id then
      (⟨StatusOK, .H [("message", "Task deleted")]⟩, ts.take i ++ ts.drop (i + 1))
    else deleteTask.loop id ts (i + 1) rest

/-- Handler `deleteTask`. -/
def deleteTask (id : String) (ts : List Task) : Response × List Task :=
  deleteTask.loop id ts 0 ts

/-! ## Loop lemmas -/

theorem getLoop_absent (id : String) (ts : List Task) (h : ∀ t ∈ ts, t.ID ≠ id) :
    getTaskByID.loop id ts = ⟨StatusNotFound, .H [("message", "Task not found")]⟩ := by
  induction ts with
  | nil => rfl
  | cons a l ih =>
    have ha : a.ID ≠ id := h a (List.mem_cons_self a l)
    simp only [getTaskByID.loop, beq_iff_eq, ha, if_false]
    exact ih (fun t ht => h t (List.mem_cons_of_mem a ht))

theorem getLoop_first (id : String) (pre : List Task) (x : Task) (post : List Task)
    (hpre : ∀ t ∈ pre, t.ID ≠ id) (hx : x.ID = id) :
    getTaskByID.loop id (pre ++ x :: post) = ⟨StatusOK, .task x⟩ := by
  induction pre with
  | nil => simp [getTaskByID.loop, hx]
  | cons a l ih =>
    have ha : a.ID ≠ id := hpre a (List.mem_cons_self a l)
    simp only [List.cons_append, getTaskByID.loop, beq_iff_eq, ha, if_false, List.append_eq]
    exact ih (fun t ht => hpre t (List.mem_cons_of_mem a ht))

theorem updateLoop_absent (id : String) (b : Task) (ts : List Task) (i : Nat)
    (rest : List Task) (h : ∀ t ∈ rest, t.ID ≠ id) :
    updateTask.loop id b ts i rest
      = (⟨StatusNotFound, .H [("message", "Task not found")]⟩, ts) := by
  induction rest generalizing i with
  | nil => rfl
  | cons a l ih =>
    have ha : a.ID ≠ id := h a (List.mem_cons_self a l)
    simp only [updateTask.loop, beq_iff_eq, ha, if_false]
    exact ih (i + 1) (fun t ht => h t (List.mem_cons_of_mem a ht))

theorem updateLoop_first (id : String) (b : Task) (ts : List Task) (i : Nat)
    (pre : List Task) (x : Task) (post : List Task)
    (hpre : ∀ t ∈ pre, t.ID ≠ id) (hx : x.ID = id) :
    updateTask.loop id b ts i (pre ++ x :: post)
      = (⟨StatusOK, .task b⟩, ts.set (i + pre.length) b) := by
  induction pre generalizing i with
  | nil => simp [updateTask.loop, hx]
  | cons a l ih =>
    have ha : a.ID ≠ id := hpre a (List.mem_cons_self a l)
    simp only [List.cons_append, updateTask.loop, beq_iff_eq, ha, if_false, List.append_eq]
    rw [ih (i + 1) (fun t ht => hpre t (List.mem_cons_of_mem a ht))]
    simp only [List.length_cons]
    congr 2
    omega

theorem deleteLoop_absent (id : String) (ts : List Task) (i : Nat)
    (rest : List Task) (h : ∀ t ∈ rest, t.ID ≠ id) :
    deleteTask.loop id ts i rest
      = (⟨StatusNotFound, .H [("message", "Task not found")]⟩, ts) := by
  induction rest generalizing i with
  | nil => rfl
  | cons a l ih =>
    have ha : a.ID ≠ id := h a (List.mem_cons_self a l)
    simp only [deleteTask.loop, beq_iff_eq, ha, if_false]
    exact ih (i + 1) (fun t ht => h t (List.mem_cons_of_mem a ht))

theorem deleteLoop_first (id : String) (ts : List Task) (i : Nat)
    (pre : List Task) (x : Task) (post : List Task)
    (hpre : ∀ t ∈ pre, t.ID ≠ id) (hx : x.ID = id) :
    deleteTask.loop id ts i (pre ++ x :: post)
      = (⟨StatusOK, .H [("message", "Task deleted")]⟩,
          ts.take (i + pre.length) ++ ts.drop (i + pre.length + 1)) := by
  induction pre generalizing i with
  | nil => simp [deleteTask.loop, hx]
  | cons a l ih =>
    have ha : a.ID ≠ id := hpre a (List.mem_cons_self a l)
    simp only [List.cons_append, deleteTask.loop, beq_iff_eq, ha, if_false, List.append_eq]
    rw [ih (i + 1) (fun t ht => hpre t (List.mem_cons_of_mem a ht))]
    simp only [List.length_cons]
    have e : i + 1 + l.length = i + (l.length + 1) := by omega
    rw [e]

/-! ## The handlers at the first matching record -/

theorem exists_first (p : String) (s : List Task) (h : ∃ t ∈ s, t.ID = p) :
    ∃ i, ∃ hi : i < s.length, s[i].ID = p ∧ ∀ t ∈ s.take i, t.ID ≠ p := by
  induction s with
  | nil => obtain ⟨t, ht, _⟩ := h; cases ht
  | cons a l ih =>
    by_cases ha : a.ID = p
    · exact ⟨0, by simp, by simpa using ha, by simp⟩
    · have hl : ∃ t ∈ l, t.ID = p := by
        obtain ⟨t, ht, htp⟩ := h
        rcases List.mem_cons.mp ht with rfl | ht
        · exact absurd htp ha
        · exact ⟨t, ht, htp⟩
      obtain ⟨i, hi, hp, hmin⟩ := ih hl
      refine ⟨i + 1, by simpa using hi, by simpa using hp, ?_⟩
      intro t ht
      rw [List.take_succ_cons] at ht
      rcases List.mem_cons.mp ht with rfl | ht
      · exact ha
      · exact hmin t ht

theorem split_at (s : List Task) (i : Nat) (hi : i < s.length) :
    s.take i ++ s[i] :: s.drop (i + 1) = s := by
  rw [List.getElem_cons_drop s i hi, List.take_append_drop]

theorem length_take_of_lt (s : List Task) (i : Nat) (hi : i < s.length) :
    (s.take i).length = i := by
  rw [List.length_take]; omega

theorem getTaskByID_absent (p : String) (s : List Task) (h : ∀ t ∈ s, t.ID ≠ p) :
    getTaskByID p s = (⟨404, .H [("message", "Task not found")]⟩, s) := by
  unfold getTaskByID; rw [getLoop_absent p s h]

theorem updateTask_absent (p : String) (b : Task) (s : List Task)
    (h : ∀ t ∈ s, t.ID ≠ p) :
    updateTask p (.ok b) s = (⟨404, .H [("message", "Task not found")]⟩, s) := by
  unfold updateTask; exact updateLoop_absent p b s 0 s h

theorem deleteTask_absent (p : String) (s : List Task) (h : ∀ t ∈ s, t.ID ≠ p) :
    deleteTask p s = (⟨404, .H [("message", "Task not found")]⟩, s) := by
  unfold deleteTask; exact deleteLoop_absent p s 0 s h

theorem getTaskByID_at (p : String) (s : List Task) (i : Nat) (hi : i < s.length)
    (hp : s[i].ID = p) (hmin : ∀ t ∈ s.take i, t.ID ≠ p) :
    getTaskByID p s = (⟨200, .task s[i]⟩, s) := by
  have e := getLoop_first p (s.take i) s[i] (s.drop (i + 1)) hmin hp
  rw [split_at s i hi] at e
  unfold getTaskByID; rw [e]

theorem updateTask_at (p : String) (b : Task) (s : List Task) (i : Nat)
    (hi : i < s.length) (hp : s[i].ID = p) (hmin : ∀ t ∈ s.take i, t.ID ≠ p) :
    updateTask p (.ok b) s = (⟨200, .task b⟩, s.set i b) := by
  have e := updateLoop_first p b s 0 (s.take i) s[i] (s.drop (i + 1)) hmin hp
  rw [split_at s i hi, length_take_of_lt s i hi, Nat.zero_add] at e
  unfold updateTask; exact e

theorem deleteTask_at (p : String) (s : List Task) (i : Nat) (hi : i < s.length)
    (hp : s[i].ID = p) (hmin : ∀ t ∈ s.take i, t.ID ≠ p) :
    deleteTask p s
      = (⟨200, .H [("message", "Task deleted")]⟩, s.take i ++ s.drop (i + 1)) := by
  have e := deleteLoop_first p s 0 (s.take i) s[i] (s.drop (i + 1)) hmin hp
  rw [split_at s i hi, length_take_of_lt s i hi, Nat.zero_add] at e
  unfold deleteTask; exact e

theorem first_in_append (p : String) (s : List Task) (t : Task) (i : Nat)
    (hi : i < s.length) (hp : s[i].ID = p) (hmin : ∀ r ∈ s.take i, r.ID ≠ p) :
    ∃ hi2 : i < (s ++ [t]).length, (s ++ [t])[i].ID = p
      ∧ (s ++ [t])[i] = s[i]
      ∧ (∀ r ∈ (s ++ [t]).take i, r.ID ≠ p)
      ∧ (s ++ [t]).take i ++ (s ++ [t]).drop (i + 1)
          = (s.take i ++ s.drop (i + 1)) ++ [t] := by
  have hi2 : i < (s ++ [t]).length := by simp; omega
  have e1 : (s ++ [t])[i] = s[i] := List.getElem_append_left hi
  have e2 : (s ++ [t]).take i = s.take i := List.take_append_of_le_length (by omega)
  have e3 : (s ++ [t]).drop (i + 1) = s.drop (i + 1) ++ [t] :=
    List.drop_append_of_le_length (by omega)
  refine ⟨hi2, by rw [e1]; exact hp, e1, by rw [e2]; exact hmin, ?_⟩
  rw [e2, e3, List.append_assoc]

theorem get_status_found (p : String) (s : List Task) (h : ∃ t ∈ s, t.ID = p) :
    (getTaskByID p s).1.status = 200 := by
  obtain ⟨i, hi, hp, hmin⟩ := exists_first p s h
  rw [getTaskByID_at p s i hi hp hmin]

theorem delete_status_found (p : String) (s : List Task) (h : ∃ t ∈ s, t.ID = p) :
    (deleteTask p s).1.status = 200 := by
  obtain ⟨i, hi, hp, hmin⟩ := exists_first p s h
  rw [deleteTask_at p s i hi hp hmin]

theorem get_notfound_iff (p : String) (s : List Task) :
    (getTaskByID p s).1 = ⟨404, .H [("message", "Task not found")]⟩
      ↔ ∀ t ∈ s, t.ID ≠ p := by
  constructor
  · intro e t ht htp
    have h200 := get_status_found p s ⟨t, ht, htp⟩
    rw [e] at h200
    simp at h200
  · intro h
    rw [getTaskByID_absent p s h]

theorem delete_notfound_iff (p : String) (s : List Task) :
    (deleteTask p s).1.status = 404 ↔ ∀ t ∈ s, t.ID ≠ p := by
  constructor
  · intro e t ht htp
    have h200 := delete_status_found p s ⟨t, ht, htp⟩
    rw [e] at h200
    simp at h200
  · intro h
    rw [deleteTask_absent p s h]

theorem countP_absent_iff (p : String) (s : List Task) :
    s.countP (fun t => t.ID == p) = 0 ↔ ∀ t ∈ s, t.ID ≠ p := by
  simp [List.countP_eq_zero]

theorem countP_at_first (p : String) (s : List Task) (i : Nat) (hi : i < s.length)
    (hp : s[i].ID = p) (hmin : ∀ t ∈ s.take i, t.ID ≠ p) :
    s.countP (fun t => t.ID == p)
      = (s.drop (i + 1)).countP (fun t => t.ID == p) + 1 := by
  have h0 : (s.take i).countP (fun t => t.ID == p) = 0 :=
    (countP_absent_iff p (s.take i)).mpr hmin
  conv_lhs => rw [← split_at s i hi]
  rw [List.countP_append, h0, List.countP_cons]
  simp [hp]

/-! ## Create and List -/

/-- C1: for every collection `s` and decoded task `t` (any field values),
Create answers 201 with body `t`, the collection afterwards is `s ++ [t]`
(one longer, every prior record at its position), and a following List answers
200 with `s ++ [t]`.  On the seed collection, posting record 3 makes List
return records 1, 2, 3 in that order. -/
theorem C1_create_appends (s : List Task) (t : Task) :
    (createTask (.ok t) s).1 = ⟨201, .task t⟩
    ∧ (createTask (.ok t) s).2 = s ++ [t]
    ∧ (createTask (.ok t) s).2.length = s.length + 1
    ∧ (∀ i (hi : i < s.length), (createTask (.ok t) s).2[i]? = some s[i])
    ∧ (createTask (.ok t) s).2[s.length]? = some t
    ∧ getTasks (createTask (.ok t) s).2 = (⟨200, .tasks (s ++ [t])⟩, s ++ [t])
    ∧ (getTasks (createTask (.ok ⟨"3", "Learn cURL", "pending"⟩) tasks).2).1
        = ⟨200, .tasks [⟨"1", "Learn Go", "pending"⟩,
                        ⟨"2", "Build a REST API", "in progress"⟩,
                        ⟨"3", "Learn cURL", "pending"⟩]⟩ := by
  refine ⟨rfl, rfl, by simp [createTask], ?_, by simp [createTask], rfl, rfl⟩
  intro i hi
  simp [createTask, List.getElem?_append_left hi]

/-- C7: when the body fails to decode with error text `e`, Create answers 400
with `{"error": e}` and leaves the collection as it was; Update does the same
for every path id, whether or not a record with that id exists, so its status
is neither 404 nor 200. -/
theorem C7_decode_failure (s : List Task) (e : String) (p : String) :
    createTask (.error e) s = (⟨400, .H [("error", e)]⟩, s)
    ∧ updateTask p (.error e) s = (⟨400, .H [("error", e)]⟩, s)
    ∧ (updateTask p (.error e) s).1.status ≠ 404
    ∧ (updateTask p (.error e) s).1.status ≠ 200 := by
  refine ⟨rfl, rfl, ?_, ?_⟩ <;> simp [updateTask]

/-! ## Requests for an absent id -/

/-- C2: when no record of `s` has id `p`, Get by ID, Update (with any decoded
body `b`) and Delete each answer 404 with `{"message":"Task not found"}` and
leave the collection equal to `s`. -/
theorem C2_absent_id_not_found (s : List Task) (p : String) (b : Task)
    (h : ∀ t ∈ s, t.ID ≠ p) :
    getTaskByID p s = (⟨404, .H [("message", "Task not found")]⟩, s)
    ∧ updateTask p (.ok b) s = (⟨404, .H [("message", "Task not found")]⟩, s)
    ∧ deleteTask p s = (⟨404, .H [("message", "Task not found")]⟩, s) :=
  ⟨getTaskByID_absent p s h, updateTask_absent p b s h, deleteTask_absent p s h⟩

theorem C2_absent_id_not_found_witness :
    (∀ t ∈ tasks, t.ID ≠ "7")
    ∧ getTaskByID "7" tasks = (⟨404, .H [("message", "Task not found")]⟩, tasks)
    ∧ updateTask "7" (.ok ⟨"7", "X", "done"⟩) tasks
        = (⟨404, .H [("message", "Task not found")]⟩, tasks)
    ∧ deleteTask "7" tasks = (⟨404, .H [("message", "Task not found")]⟩, tasks) :=
  ⟨by simp [tasks], C2_absent_id_not_found tasks "7" ⟨"7", "X", "done"⟩ (by simp [tasks])⟩

/-! ## Get by ID -/

/-- C8: Get by ID answers 200 exactly when some record of `s` has id equal to
`p` (string equality, so ids differing in letter case do not match); then the
returned record is the one at the least index `i` with `s[i].ID = p`; otherwise
the answer is the 404 not-found response; in every case the collection after
the call is `s`. -/
theorem C8_get_by_id (s : List Task) (p : String) :
    ((getTaskByID p s).1.status = 200 ↔ ∃ t ∈ s, t.ID = p)
    ∧ (∀ i (hi : i < s.length), s[i].ID = p → (∀ t ∈ s.take i, t.ID ≠ p) →
        (getTaskByID p s).1 = ⟨200, .task s[i]⟩)
    ∧ ((∃ t ∈ s, t.ID = p) →
        ∃ i, ∃ hi : i < s.length, s[i].ID = p ∧ (∀ t ∈ s.take i, t.ID ≠ p)
          ∧ (getTaskByID p s).1 = ⟨200, .task s[i]⟩)
    ∧ ((getTaskByID p s).1.status ≠ 200 →
        (getTaskByID p s).1 = ⟨404, .H [("message", "Task not found")]⟩)
    ∧ (getTaskByID p s).2 = s
    ∧ (getTaskByID "a" [⟨"A", "Learn Go", "pending"⟩]).1.status = 404 := by
  have hat : ∀ i (hi : i < s.length), s[i].ID = p → (∀ t ∈ s.take i, t.ID ≠ p) →
      (getTaskByID p s).1 = ⟨200, .task s[i]⟩ := by
    intro i hi hp hmin
    rw [getTaskByID_at p s i hi hp hmin]
  have hex : (∃ t ∈ s, t.ID = p) →
      ∃ i, ∃ hi : i < s.length, s[i].ID = p ∧ (∀ t ∈ s.take i, t.ID ≠ p)
        ∧ (getTaskByID p s).1 = ⟨200, .task s[i]⟩ := by
    intro h
    obtain ⟨i, hi, hp, hmin⟩ := exists_first p s h
    exact ⟨i, hi, hp, hmin, hat i hi hp hmin⟩
  have hno : ¬ (∃ t ∈ s, t.ID = p) →
      (getTaskByID p s).1 = ⟨404, .H [("message", "Task not found")]⟩ := by
    intro h
    rw [getTaskByID_absent p s (fun t ht e => h ⟨t, ht, e⟩)]
  refine ⟨⟨?_, ?_⟩, hat, hex, ?_, rfl, ?_⟩
  · intro h200
    by_contra hn
    rw [hno hn] at h200
    simp at h200
  · intro h
    obtain ⟨i, hi, _, _, e⟩ := hex h
    rw [e]
  · intro hne
    by_cases h : ∃ t ∈ s, t.ID = p
    · obtain ⟨i, hi, _, _, e⟩ := hex h
      rw [e] at hne
      exact absurd rfl hne
    · exact hno h
  · simp [getTaskByID, getTaskByID.loop]

/-- C3: if no record of `s` has the id of `t`, then Create of `t` on `s`
followed by Get by ID with `t.ID` answers 200 with a record equal to `t` (and
the collection is `s ++ [t]`).  Nothing is asked of `t.ID` beyond being absent
from `s`; a non-empty id is a special case. -/
theorem C3_create_then_get (s : List Task) (t : Task)
    (huniq : ∀ r ∈ s, r.ID ≠ t.ID) :
    getTaskByID t.ID (createTask (.ok t) s).2 = (⟨200, .task t⟩, s ++ [t]) := by
  show (getTaskByID.loop t.ID (s ++ [t]), s ++ [t]) = _
  rw [getLoop_first t.ID s t [] huniq rfl]

theorem C3_create_then_get_witness :
    (⟨"3", "Learn cURL", "pending"⟩ : Task).ID ≠ ""
    ∧ (∀ r ∈ tasks, r.ID ≠ (⟨"3", "Learn cURL", "pending"⟩ : Task).ID)
    ∧ getTaskByID "3" (createTask (.ok ⟨"3", "Learn cURL", "pending"⟩) tasks).2
        = (⟨200, .task ⟨"3", "Learn cURL", "pending"⟩⟩,
            tasks ++ [⟨"3", "Learn cURL", "pending"⟩]) :=
  ⟨by simp, by simp [tasks],
    C3_create_then_get tasks ⟨"3", "Learn cURL", "pending"⟩ (by simp [tasks])⟩

/-! ## Delete -/

/-- C6: when `s` holds a record with id `p`, Delete answers 200 with
`{"message":"Task deleted"}` and the collection becomes `s` without the first
record whose id is `p`: with `i` the least index such that `s[i].ID = p`, the
result is `s[0..i) ++ s[i+1..]`, one shorter, the other records in their
order (later records with id `p` included).  On the seed plus record 3,
deleting id 2 leaves records 1 and 3 in that order. -/
theorem C6_delete_removes_first (s : List Task) (p : String)
    (h : ∃ t ∈ s, t.ID = p) :
    (deleteTask p s).1 = ⟨200, .H [("message", "Task deleted")]⟩
    ∧ (deleteTask p s).2.length + 1 = s.length
    ∧ (deleteTask p s).2.Sublist s
    ∧ (∃ i, ∃ hi : i < s.length, s[i].ID = p ∧ (∀ t ∈ s.take i, t.ID ≠ p)
        ∧ (deleteTask p s).2 = s.take i ++ s.drop (i + 1))
    ∧ (∀ i (hi : i < s.length), s[i].ID = p → (∀ t ∈ s.take i, t.ID ≠ p) →
        (deleteTask p s).2 = s.take i ++ s.drop (i + 1))
    ∧ (deleteTask "2" (tasks ++ [⟨"3", "Learn cURL", "pending"⟩])).2
        = [⟨"1", "Learn Go", "pending"⟩, ⟨"3", "Learn cURL", "pending"⟩] := by
  obtain ⟨i, hi, hp, hmin⟩ := exists_first p s h
  have e := deleteTask_at p s i hi hp hmin
  refine ⟨by rw [e], ?_, ?_, ⟨i, hi, hp, hmin, by rw [e]⟩, ?_, ?_⟩
  · rw [e]
    simp only [List.length_append, List.length_take, List.length_drop]
    omega
  · rw [e]
    have hs : (s.take i ++ s.drop (i + 1)).Sublist (s.take i ++ s.drop i) :=
      List.Sublist.append_left
        (by rw [← List.getElem_cons_drop s i hi]; exact List.sublist_cons_self _ _) _
    rwa [List.take_append_drop] at hs
  · intro j hj hpj hminj
    rw [deleteTask_at p s j hj hpj hminj]
  · simp [deleteTask, deleteTask.loop, tasks]

theorem C6_delete_removes_first_witness :
    (∃ t ∈ tasks ++ [⟨"2", "Again", "pending"⟩], t.ID = "2")
    ∧ (deleteTask "2" (tasks ++ [⟨"2", "Again", "pending"⟩])).1
        = ⟨200, .H [("message", "Task deleted")]⟩
    ∧ (deleteTask "2" (tasks ++ [⟨"2", "Again", "pending"⟩])).2
        = [⟨"1", "Learn Go", "pending"⟩, ⟨"2", "Again", "pending"⟩] :=
  ⟨⟨⟨"2", "Again", "pending"⟩, by simp [tasks], rfl⟩,
    (C6_delete_removes_first (tasks ++ [⟨"2", "Again", "pending"⟩]) "2"
      ⟨⟨"2", "Again", "pending"⟩, by simp [tasks], rfl⟩).1,
    by simp [deleteTask, deleteTask.loop, tasks]⟩

/-! ## Update -/

/-- C9: when `s` holds a record with id `p`, Update with decoded body `b`
answers 200 with body `b`; the collection keeps its length, holds `b` at the
least index `i` with `s[i].ID = p`, and equals `s` at every other index (so
later records with id `p`, and records whose id is `b.ID`, stay as they
were). -/
theorem C9_update_frame (s : List Task) (p : String) (b : Task)
    (h : ∃ t ∈ s, t.ID = p) :
    (updateTask p (.ok b) s).1 = ⟨200, .task b⟩
    ∧ (updateTask p (.ok b) s).2.length = s.length
    ∧ (∃ i, ∃ hi : i < s.length, s[i].ID = p ∧ (∀ t ∈ s.take i, t.ID ≠ p)
        ∧ (updateTask p (.ok b) s).2 = s.set i b)
    ∧ (∀ i (hi : i < s.length), s[i].ID = p → (∀ t ∈ s.take i, t.ID ≠ p) →
        (updateTask p (.ok b) s).2 = s.take i ++ b :: s.drop (i + 1)
        ∧ (updateTask p (.ok b) s).2[i]? = some b
        ∧ ∀ j, j ≠ i → (updateTask p (.ok b) s).2[j]? = s[j]?) := by
  obtain ⟨i, hi, hp, hmin⟩ := exists_first p s h
  have e := updateTask_at p b s i hi hp hmin
  refine ⟨by rw [e], by rw [e]; simp, ⟨i, hi, hp, hmin, by rw [e]⟩, ?_⟩
  intro j hj hpj hminj
  rw [updateTask_at p b s j hj hpj hminj]
  refine ⟨List.set_eq_take_append_cons_drop.trans (if_pos hj), ?_, ?_⟩
  · simp [hj]
  · intro k hk
    exact List.getElem?_set_ne (Ne.symm hk)

theorem C9_update_frame_witness :
    (∃ t ∈ tasks ++ [⟨"1", "Again", "pending"⟩, ⟨"9", "Old", "pending"⟩], t.ID = "1")
    ∧ (updateTask "1" (.ok ⟨"9", "X", "done"⟩)
        (tasks ++ [⟨"1", "Again", "pending"⟩, ⟨"9", "Old", "pending"⟩])).1
        = ⟨200, .task ⟨"9", "X", "done"⟩⟩
    ∧ (updateTask "1" (.ok ⟨"9", "X", "done"⟩)
        (tasks ++ [⟨"1", "Again", "pending"⟩, ⟨"9", "Old", "pending"⟩])).2
        = [⟨"9", "X", "done"⟩, ⟨"2", "Build a REST API", "in progress"⟩,
            ⟨"1", "Again", "pending"⟩, ⟨"9", "Old", "pending"⟩] :=
  ⟨⟨⟨"1", "Learn Go", "pending"⟩, by simp [tasks], rfl⟩,
    (C9_update_frame (tasks ++ [⟨"1", "Again", "pending"⟩, ⟨"9", "Old", "pending"⟩])
      "1" ⟨"9", "X", "done"⟩ ⟨⟨"1", "Learn Go", "pending"⟩, by simp [tasks], rfl⟩).1,
    by simp [updateTask, updateTask.loop, tasks]⟩

/-! ## Duplicate ids -/

/-- C10: when `s` already holds a record with id `p` and `t.ID = p`, then after
Create of `t` a Get by ID with `p` answers 200 with the first record of `s`
having id `p`, the record at the least matching index `i < s.length` and the
same answer Get gave before the Create, not the appended record at index
`s.length`; one Delete of `p` on that collection removes that earlier record
and keeps `t` stored at the end, so a following Get by ID with `p` still
answers 200. -/
theorem C10_duplicate_id_shadowed (s : List Task) (p : String) (t : Task)
    (h : ∃ r ∈ s, r.ID = p) (ht : t.ID = p) :
    (getTaskByID p (createTask (.ok t) s).2).1 = (getTaskByID p s).1
    ∧ (getTaskByID p (createTask (.ok t) s).2).1.status = 200
    ∧ (∃ i, ∃ hi : i < s.length, s[i].ID = p ∧ (∀ r ∈ s.take i, r.ID ≠ p)
        ∧ (getTaskByID p (createTask (.ok t) s).2).1 = ⟨200, .task s[i]⟩
        ∧ deleteTask p (createTask (.ok t) s).2
            = (⟨200, .H [("message", "Task deleted")]⟩,
                (s.take i ++ s.drop (i + 1)) ++ [t]))
    ∧ (deleteTask p (createTask (.ok t) s).2).2 = (deleteTask p s).2 ++ [t]
    ∧ t ∈ (deleteTask p (createTask (.ok t) s).2).2
    ∧ (getTaskByID p (deleteTask p (createTask (.ok t) s).2).2).1.status = 200 := by
  obtain ⟨i, hi, hp, hmin⟩ := exists_first p s h
  obtain ⟨hi2, hp2, e1, hmin2, e2⟩ := first_in_append p s t i hi hp hmin
  have hc : (createTask (.ok t) s).2 = s ++ [t] := rfl
  have hg : (getTaskByID p (s ++ [t])).1 = ⟨200, .task s[i]⟩ := by
    rw [getTaskByID_at p (s ++ [t]) i hi2 hp2 hmin2, e1]
  have hd : deleteTask p (s ++ [t])
      = (⟨200, .H [("message", "Task deleted")]⟩,
          (s.take i ++ s.drop (i + 1)) ++ [t]) := by
    rw [deleteTask_at p (s ++ [t]) i hi2 hp2 hmin2, e2]
  rw [hc]
  refine ⟨?_, by rw [hg], ⟨i, hi, hp, hmin, hg, hd⟩, ?_, ?_, ?_⟩
  · rw [hg, getTaskByID_at p s i hi hp hmin]
  · rw [hd, deleteTask_at p s i hi hp hmin]
  · rw [hd]; simp
  · rw [hd]
    exact get_status_found p _ ⟨t, by simp, ht⟩

theorem C10_duplicate_id_shadowed_witness :
    (∃ r ∈ tasks, r.ID = "2") ∧ (⟨"2", "Newer", "done"⟩ : Task).ID = "2"
    ∧ (getTaskByID "2" (createTask (.ok ⟨"2", "Newer", "done"⟩) tasks).2).1
        = ⟨200, .task ⟨"2", "Build a REST API", "in progress"⟩⟩
    ∧ (deleteTask "2" (createTask (.ok ⟨"2", "Newer", "done"⟩) tasks).2).2
        = [⟨"1", "Learn Go", "pending"⟩, ⟨"2", "Newer", "done"⟩]
    ∧ (getTaskByID "2"
        (deleteTask "2" (createTask (.ok ⟨"2", "Newer", "done"⟩) tasks).2).2).1.status
        = 200 :=
  ⟨⟨⟨"2", "Build a REST API", "in progress"⟩, by simp [tasks], rfl⟩, rfl,
    by simp [getTaskByID, getTaskByID.loop, createTask, tasks],
    by simp [deleteTask, deleteTask.loop, createTask, tasks],
    (C10_duplicate_id_shadowed tasks "2" ⟨"2", "Newer", "done"⟩
      ⟨⟨"2", "Build a REST API", "in progress"⟩, by simp [tasks], rfl⟩ rfl).2.2.2.2.2⟩

/-! ## Update and the stored id -/

/-- C5, as the code has it: when `s` holds a record with id `p`, after Update
of `p` with decoded body `b` a Get by ID with `b.ID` answers 200, and the
record it returns is `b` whenever no record before the least index `i` with
`s[i].ID = p` has id `b.ID`; a Get by ID with `p` answers 404 exactly when
`b.ID` differs from `p` and `s` holds one record only with id `p`. -/
theorem C5_update_replaces_id (s : List Task) (p : String) (b : Task)
    (h : ∃ t ∈ s, t.ID = p) :
    (getTaskByID b.ID (updateTask p (.ok b) s).2).1.status = 200
    ∧ (∀ i (hi : i < s.length), s[i].ID = p → (∀ t ∈ s.take i, t.ID ≠ p) →
        (∀ t ∈ s.take i, t.ID ≠ b.ID) →
        (getTaskByID b.ID (updateTask p (.ok b) s).2).1 = ⟨200, .task b⟩)
    ∧ ((getTaskByID p (updateTask p (.ok b) s).2).1
          = ⟨404, .H [("message", "Task not found")]⟩
        ↔ b.ID ≠ p ∧ s.countP (fun t => t.ID == p) = 1) := by
  have hset : ∀ i (hi : i < s.length), s[i].ID = p → (∀ t ∈ s.take i, t.ID ≠ p) →
      (updateTask p (.ok b) s).2 = s.take i ++ b :: s.drop (i + 1) := by
    intro i hi hp hmin
    rw [updateTask_at p b s i hi hp hmin]
    exact List.set_eq_take_append_cons_drop.trans (if_pos hi)
  obtain ⟨i, hi, hp, hmin⟩ := exists_first p s h
  refine ⟨?_, ?_, ?_⟩
  · rw [hset i hi hp hmin]
    exact get_status_found b.ID _ ⟨b, by simp, rfl⟩
  · intro j hj hpj hminj hpre
    rw [hset j hj hpj hminj]
    show getTaskByID.loop b.ID (s.take j ++ b :: s.drop (j + 1)) = _
    exact getLoop_first b.ID (s.take j) b (s.drop (j + 1)) hpre rfl
  · rw [hset i hi hp hmin, get_notfound_iff, countP_at_first p s i hi hp hmin]
    constructor
    · intro hall
      refine ⟨hall b (by simp), ?_⟩
      have h0 : (s.drop (i + 1)).countP (fun t => t.ID == p) = 0 :=
        (countP_absent_iff p _).mpr (fun t ht => hall t (by simp [ht]))
      omega
    · rintro ⟨hb, hc⟩ t ht
      have h0 : (s.drop (i + 1)).countP (fun t => t.ID == p) = 0 := by omega
      rcases List.mem_append.mp ht with ht | ht
      · exact hmin t ht
      · rcases List.mem_cons.mp ht with rfl | ht
        · exact hb
        · exact (countP_absent_iff p _).mp h0 t ht

theorem C5_update_replaces_id_witness :
    (∃ t ∈ tasks, t.ID = "1")
    ∧ getTaskByID "9" (updateTask "1" (.ok ⟨"9", "X", "done"⟩) tasks).2
        = (⟨200, .task ⟨"9", "X", "done"⟩⟩,
            [⟨"9", "X", "done"⟩, ⟨"2", "Build a REST API", "in progress"⟩])
    ∧ (getTaskByID "1" (updateTask "1" (.ok ⟨"9", "X", "done"⟩) tasks).2).1
        = ⟨404, .H [("message", "Task not found")]⟩ :=
  ⟨⟨⟨"1", "Learn Go", "pending"⟩, by simp [tasks], rfl⟩,
    by simp [getTaskByID, getTaskByID.loop, updateTask, updateTask.loop, tasks],
    (C5_update_replaces_id tasks "1" ⟨"9", "X", "done"⟩
      ⟨⟨"1", "Learn Go", "pending"⟩, by simp [tasks], rfl⟩).2.2.mpr
      ⟨by simp, by simp [tasks]⟩⟩

/-- C5 fails as stated.  On the seed collection, Update of id 2 with body
`{1, X, done}` leaves record 1 in front, so Get by ID with 1 returns the old
record 1 and not the body; and Update of id 1 with body
`{1, Master Go, completed}` (same id) leaves Get by ID with 1 at 200, not
404. -/
theorem C5_update_replaces_id_counterexample :
    (∃ t ∈ tasks, t.ID = "2")
    ∧ (getTaskByID "1" (updateTask "2" (.ok ⟨"1", "X", "done"⟩) tasks).2).1
        = ⟨200, .task ⟨"1", "Learn Go", "pending"⟩⟩
    ∧ (getTaskByID "1" (updateTask "2" (.ok ⟨"1", "X", "done"⟩) tasks).2).1
        ≠ ⟨200, .task ⟨"1", "X", "done"⟩⟩
    ∧ (∃ t ∈ tasks, t.ID = "1")
    ∧ (getTaskByID "1"
        (updateTask "1" (.ok ⟨"1", "Master Go", "completed"⟩) tasks).2).1
        = ⟨200, .task ⟨"1", "Master Go", "completed"⟩⟩
    ∧ (getTaskByID "1"
        (updateTask "1" (.ok ⟨"1", "Master Go", "completed"⟩) tasks).2).1.status
        ≠ 404 := by
  simp [getTaskByID, getTaskByID.loop, updateTask, updateTask.loop, tasks]

/-! ## Delete twice -/

/-- C4, as the code has it: Delete of `p` followed by Delete of `p` on the
resulting collection answers 200 and then 404 exactly when one and only one
record of `s` has id `p`.  The first call answers 200 exactly when some record
has id `p` (404 otherwise), and the second answers 404 exactly when at most one
record of `s` has id `p` (200 when there are several).  On the seed collection
with id 2 the answers are 200 then 404. -/
theorem C4_delete_twice (s : List Task) (p : String) :
    (((deleteTask p s).1.status = 200
        ∧ (deleteTask p (deleteTask p s).2).1.status = 404)
      ↔ s.countP (fun t => t.ID == p) = 1)
    ∧ ((deleteTask p s).1.status = 200 ↔ ∃ t ∈ s, t.ID = p)
    ∧ ((deleteTask p s).1.status = 404 ↔ ∀ t ∈ s, t.ID ≠ p)
    ∧ ((deleteTask p (deleteTask p s).2).1.status = 404
        ↔ s.countP (fun t => t.ID == p) ≤ 1)
    ∧ ((deleteTask p (deleteTask p s).2).1.status = 200
        ↔ 2 ≤ s.countP (fun t => t.ID == p))
    ∧ ((deleteTask "2" tasks).1.status = 200
        ∧ (deleteTask "2" (deleteTask "2" tasks).2).1.status = 404) := by
  have hfirst : (deleteTask p s).1.status = 200 ↔ ∃ t ∈ s, t.ID = p := by
    constructor
    · intro h200
      by_contra hn
      rw [deleteTask_absent p s (fun t ht e => hn ⟨t, ht, e⟩)] at h200
      simp at h200
    · exact delete_status_found p s
  have hsecond : ((deleteTask p (deleteTask p s).2).1.status = 404
        ↔ s.countP (fun t => t.ID == p) ≤ 1)
      ∧ ((deleteTask p (deleteTask p s).2).1.status = 200
        ↔ 2 ≤ s.countP (fun t => t.ID == p)) := by
    by_cases h : ∃ t ∈ s, t.ID = p
    · obtain ⟨i, hi, hp, hmin⟩ := exists_first p s h
      have hc := countP_at_first p s i hi hp hmin
      have hr : (s.take i ++ s.drop (i + 1)).countP (fun t => t.ID == p)
          = (s.drop (i + 1)).countP (fun t => t.ID == p) := by
        rw [List.countP_append, (countP_absent_iff p (s.take i)).mpr hmin, Nat.zero_add]
      rw [deleteTask_at p s i hi hp hmin]
      by_cases h2 : ∃ t ∈ s.take i ++ s.drop (i + 1), t.ID = p
      · have hpos : (s.take i ++ s.drop (i + 1)).countP (fun t => t.ID == p) ≠ 0 := by
          intro h0
          obtain ⟨t, ht, htp⟩ := h2
          exact (countP_absent_iff p _).mp h0 t ht htp
        have h200 := delete_status_found p _ h2
        constructor
        · constructor
          · intro h404; rw [h200] at h404; simp at h404
          · intro hle; omega
        · constructor
          · intro _; omega
          · intro _; exact h200
      · have habs : ∀ t ∈ s.take i ++ s.drop (i + 1), t.ID ≠ p :=
          fun t ht e => h2 ⟨t, ht, e⟩
        have h0 := (countP_absent_iff p _).mpr habs
        have h404 := (delete_notfound_iff p _).mpr habs
        constructor
        · constructor
          · intro _; omega
          · intro _; exact h404
        · constructor
          · intro h200; rw [h404] at h200; simp at h200
          · intro hge; omega
    · have habs : ∀ t ∈ s, t.ID ≠ p := fun t ht e => h ⟨t, ht, e⟩
      have h0 := (countP_absent_iff p s).mpr habs
      rw [deleteTask_absent p s habs]
      have h404 := (delete_notfound_iff p s).mpr habs
      constructor
      · constructor
        · intro _; omega
        · intro _; exact h404
      · constructor
        · intro h200; rw [h404] at h200; simp at h200
        · intro hge; omega
  have hpos : (∃ t ∈ s, t.ID = p) ↔ 1 ≤ s.countP (fun t => t.ID == p) := by
    constructor
    · intro h
      by_contra hn
      obtain ⟨t, ht, htp⟩ := h
      exact (countP_absent_iff p s).mp (by omega) t ht htp
    · intro h1
      by_contra hn
      have := (countP_absent_iff p s).mpr (fun t ht e => hn ⟨t, ht, e⟩)
      omega
  refine ⟨?_, hfirst, delete_notfound_iff p s, hsecond.1, hsecond.2, ?_⟩
  · rw [hfirst, hsecond.1, hpos]
    omega
  · simp [deleteTask, deleteTask.loop, tasks]

/-- C4 fails as stated: on the seed collection Delete of the absent id 7
answers 404 at the first call, and on a collection holding two records with
id 2 the second Delete of id 2 answers 200. -/
theorem C4_delete_twice_counterexample :
    ¬ ((deleteTask "7" tasks).1.status = 200
        ∧ (deleteTask "7" (deleteTask "7" tasks).2).1.status = 404)
    ∧ (deleteTask "7" tasks).1.status = 404
    ∧ ¬ ((deleteTask "2" (tasks ++ [⟨"2", "Again", "pending"⟩])).1.status = 200
        ∧ (deleteTask "2"
            (deleteTask "2" (tasks ++ [⟨"2", "Again", "pending"⟩])).2).1.status = 404)
    ∧ (deleteTask "2"
        (deleteTask "2" (tasks ++ [⟨"2", "Again", "pending"⟩])).2).1.status = 200 := by
  simp [deleteTask, deleteTask.loop, tasks]

end TaskAPI
